import Mathlib

/-!
Verification of the event-normalization and queue-mediated analysis pipeline
of the AluhaSOC repository.  Python dictionaries holding canonical events are
modelled as ordered association lists of scalar JSON values; connector and
bus operations are translated function-by-function from the source files
(`src/agents/*.py`, `src/analysis/message_bus.py`, `src/analysis/llm/engine.py`,
`src/notifications/notifier.py`).  Wall-clock reads (`datetime.now()`) are
modelled by explicit time parameters, and calls into external collaborators
(Splunk/Wazuh/AWS client libraries, the language model, SMTP/webhook
transports) are modelled as oracle parameters that may fail.
-/

namespace AluhaSOC

/-- Scalar JSON value as stored in a canonical-event dictionary.  Canonical
events produced by the connectors are flat string-keyed records whose values
are strings or integers (`src` §3 data model). -/
inductive Value where
  | vstr : String → Value
  | vint : Int → Value
deriving DecidableEq, Repr

/-- A Python `dict` with string keys and scalar values, as an ordered
association list (Python dicts preserve insertion order). -/
abbrev Dict := List (String × Value)

/-- Python `d[k]` lookup returning `none` when the key is absent. -/
def dictGet : Dict → String → Option Value
  | [], _ => none
  | (k, v) :: rest, key => if k = key then some v else dictGet rest key

/-- Python `d.get(k, default)`. -/
def pyGet (d : Dict) (key : String) (default : Value) : Value :=
  (dictGet d key).getD default

/-- Python `d[k] = v`: overwrite the value at an existing key in place,
otherwise append the new binding at the end (insertion-order semantics). -/
def dictSet : Dict → String → Value → Dict
  | [], key, v => [(key, v)]
  | (k, w) :: rest, key, v =>
      if k = key then (k, v) :: rest else (k, w) :: dictSet rest key v

/-- The four canonical severity levels of the data model. -/
def canonicalSeverities : List String := ["critical", "high", "medium", "low"]

/-- `AWSAgent._map_guardduty_severity` (src/agents/aws/aws_agent.py): map a
GuardDuty 0–10 severity (a float, modelled as a rational) to a canonical
level. -/
def mapGuarddutySeverity (severity : ℚ) : String :=
  if severity ≥ 7 then "critical"
  else if severity ≥ 4 then "high"
  else if severity ≥ 2 then "medium"
  else "low"

/-- `AWSAgent._map_securityhub_severity` (src/agents/aws/aws_agent.py): map a
SecurityHub 0–100 normalized severity to a canonical level. -/
def mapSecurityhubSeverity (severity : Int) : String :=
  if severity ≥ 70 then "critical"
  else if severity ≥ 40 then "high"
  else if severity ≥ 20 then "medium"
  else "low"

/-- `WazuhAgent._map_severity` (src/agents/wazuh/wazuh_agent.py): map a Wazuh
rule level to a canonical level. -/
def wazuhMapSeverity (level : Int) : String :=
  if level ≥ 15 then "critical"
  else if level ≥ 10 then "high"
  else if level ≥ 5 then "medium"
  else "low"

/-- `SplunkAgent.parse_log` (src/agents/splunk/splunk_agent.py): normalize one
Splunk result record.  `now_iso` stands for `datetime.now().isoformat()`, used
as the default timestamp.  Note that the `severity` field is taken from the
native record unchanged, with default `'info'`. -/
def splunkParseLog (now_iso : String) (log : Dict) : Dict :=
  [ ("timestamp", pyGet log "_time" (.vstr now_iso)),
    ("source", pyGet log "source" (.vstr "unknown")),
    ("sourcetype", pyGet log "sourcetype" (.vstr "unknown")),
    ("host", pyGet log "host" (.vstr "unknown")),
    ("raw", pyGet log "_raw" (.vstr "")),
    ("severity", pyGet log "severity" (.vstr "info")),
    ("event_type", pyGet log "eventtype" (.vstr "unknown")),
    ("source_ip", pyGet log "src_ip" (.vstr "")),
    ("destination_ip", pyGet log "dest_ip" (.vstr "")),
    ("user", pyGet log "user" (.vstr "")),
    ("action", pyGet log "action" (.vstr "")),
    ("status", pyGet log "status" (.vstr "")),
    ("message", pyGet log "message" (.vstr "")) ]

/-- Native (untranslated) provider value: Wazuh API responses are nested
JSON objects, so native records need a nested value type, unlike the flat
canonical-event dictionaries. -/
inductive NVal where
  | nstr : String → NVal
  | nint : Int → NVal
  | nobj : List (String × NVal) → NVal

/-- Association-list lookup inside a native object. -/
def nFind : List (String × NVal) → String → Option NVal
  | [], _ => none
  | (k, v) :: rest, key => if k = key then some v else nFind rest key

/-- Python `v.get(key, default)` on a native value: succeeds only when `v` is
a dict; on any other value `.get` raises `AttributeError`, modelled as
`none`. -/
def nGet (v : NVal) (key : String) (default : NVal) : Option NVal :=
  match v with
  | .nobj fields => some ((nFind fields key).getD default)
  | _ => none

/-- The double-quote character as a one-character string. -/
def dq : String := String.singleton (Char.ofNat 34)

/-- The opening-brace character as a one-character string. -/
def obr : String := String.singleton (Char.ofNat 123)

/-- The closing-brace character as a one-character string. -/
def cbr : String := String.singleton (Char.ofNat 125)

mutual

/-- Python `json.dumps` on a native value, used by the Wazuh connector for
the `raw` field (its output string is treated as opaque by every claim). -/
def nvalDumps : NVal → String
  | .nstr s => dq ++ s ++ dq
  | .nint n => toString n
  | .nobj fields => obr ++ nvalDumpsFields fields ++ cbr

/-- Helper of `nvalDumps` serializing the fields of an object. -/
def nvalDumpsFields : List (String × NVal) → String
  | [] => ""
  | [(k, v)] => dq ++ k ++ dq ++ ": " ++ nvalDumps v
  | (k, v) :: rest => dq ++ k ++ dq ++ ": " ++ nvalDumps v ++ ", " ++ nvalDumpsFields rest

end

/-- Store a native leaf value into a flat canonical-event dictionary.  The
scalar cases are the ones the Wazuh wire format produces at these leaves; a
native sub-object stored verbatim by Python is modelled by its
serialization. -/
def storeScalar : NVal → Value
  | .nstr s => .vstr s
  | .nint n => .vint n
  | .nobj fields => .vstr (nvalDumps (.nobj fields))

/-- A native value used as an `int` (the argument of `_map_severity`):
anything but an integer makes the threshold comparison raise `TypeError`,
modelled as `none`. -/
def asInt : NVal → Option Int
  | .nint n => some n
  | _ => none

/-- Lookup chains of `WazuhAgent.parse_log` for the timestamp, agent and
rule fields: `timestamp`, `agent.name`, `rule.level` (string default and
integer default, the latter fed to `_map_severity`), and `rule.description`;
`none` models an exception escaping to the `except` clause. -/
def wazuhLookupsA (now_iso : String) (source : NVal) :
    Option (NVal × NVal × NVal × NVal × Int) :=
  Option.bind (nGet source "timestamp" (.nstr now_iso)) fun timestamp =>
  Option.bind (nGet source "agent" (.nobj [])) fun agentObj =>
  Option.bind (nGet agentObj "name" (.nstr "unknown")) fun agentName =>
  Option.bind (nGet source "rule" (.nobj [])) fun ruleObj =>
  Option.bind (nGet ruleObj "level" (.nstr "unknown")) fun ruleLevelOrUnknown =>
  Option.bind (nGet ruleObj "level" (.nint 0)) fun ruleLevelOrZero =>
  Option.bind (asInt ruleLevelOrZero) fun level =>
  Option.bind (nGet ruleObj "description" (.nstr "unknown")) fun description =>
  some (timestamp, agentName, ruleLevelOrUnknown, description, level)

/-- Lookup chains of `WazuhAgent.parse_log` for the network, user and rule
action/status fields: `sourceip`, `destinationip`,
`data.win.eventdata.user`, `rule.action` and `rule.status` (the source
recomputes `source.get('rule', \x7b\x7d)` for each field). -/
def wazuhLookupsB (source : NVal) :
    Option (NVal × NVal × NVal × NVal × NVal) :=
  Option.bind (nGet source "sourceip" (.nstr "")) fun sourceip =>
  Option.bind (nGet source "destinationip" (.nstr "")) fun destinationip =>
  Option.bind (nGet source "data" (.nobj [])) fun dataObj =>
  Option.bind (nGet dataObj "win" (.nobj [])) fun winObj =>
  Option.bind (nGet winObj "eventdata" (.nobj [])) fun eventdataObj =>
  Option.bind (nGet eventdataObj "user" (.nstr "")) fun user =>
  Option.bind (nGet source "rule" (.nobj [])) fun ruleObj =>
  Option.bind (nGet ruleObj "action" (.nstr "")) fun action =>
  Option.bind (nGet ruleObj "status" (.nstr "")) fun status =>
  some (sourceip, destinationip, user, action, status)

/-- Body of `WazuhAgent.parse_log` (src/agents/wazuh/wazuh_agent.py) before
its `except` clause: build the canonical event from the lookup chains;
`none` models an exception escaping the body. -/
def wazuhParseLogBody (now_iso : String) (log : List (String × NVal)) : Option Dict :=
  let source := (nFind log "_source").getD (.nobj [])
  Option.bind (wazuhLookupsA now_iso source) fun a =>
  Option.bind (wazuhLookupsB source) fun b =>
  match a, b with
  | (timestamp, agentName, ruleLevelOrUnknown, description, level),
    (sourceip, destinationip, user, action, status) =>
    some
      [ ("timestamp", storeScalar timestamp),
        ("source", .vstr "wazuh"),
        ("agent", storeScalar agentName),
        ("rule", storeScalar ruleLevelOrUnknown),
        ("severity", .vstr (wazuhMapSeverity level)),
        ("event_type", storeScalar description),
        ("source_ip", storeScalar sourceip),
        ("destination_ip", storeScalar destinationip),
        ("user", storeScalar user),
        ("action", storeScalar action),
        ("status", storeScalar status),
        ("message", storeScalar description),
        ("raw", .vstr (nvalDumps source)) ]

/-- `WazuhAgent.parse_log`: the body above wrapped in `try/except`, which
returns the empty dict `{}` on any exception. -/
def wazuhParseLog (now_iso : String) (log : List (String × NVal)) : Dict :=
  (wazuhParseLogBody now_iso log).getD []

/-- `BaseLogAgent.process_logs` (src/agents/base_agent.py): translate each
record of a batch, catching per-record exceptions and keeping only the
successful translations in input order. -/
def processLogs (parse_log : α → Except String Dict) (logs : List α) : List Dict :=
  logs.filterMap (fun log => (parse_log log).toOption)

/-- `BaseLogAgent.run` (src/agents/base_agent.py): connect (raising
`ConnectionError` when it returns false), fetch with `self.fetch_logs()` — no
arguments — process the batch, then set `last_run` to the completion instant
`now_finish`; any exception in that sequence is caught and yields `[]` with
`last_run` untouched.  The `finally: self.disconnect()` touches no modelled
state.  Returns the processed events paired with the new watermark. -/
def baseRun (connect : Except String Bool)
    (fetch_logs : Option Int → Option Int → Except String (List α))
    (parse_log : α → Except String Dict)
    (now_finish : Int) (last_run : Option Int) : List Dict × Option Int :=
  match connect with
  | .error _ => ([], last_run)
  | .ok false => ([], last_run)
  | .ok true =>
      match fetch_logs none none with
      | .error _ => ([], last_run)
      | .ok logs => (processLogs parse_log logs, some now_finish)

/-- Default-window computation at the top of `SplunkAgent.fetch_logs`
(src/agents/splunk/splunk_agent.py): a missing start defaults to
`now - search_interval`, a missing end to `now`; instants are abstract
integers and the two `datetime.now()` reads are `now1` and `now2`. -/
def splunkFetchWindow (search_interval : Int) (start_time end_time : Option Int)
    (now1 now2 : Int) : Int × Int :=
  (start_time.getD (now1 - search_interval), end_time.getD now2)

/-- The fetch window a collection cycle actually uses: `BaseLogAgent.run`
invokes `self.fetch_logs()` with no arguments, so both window bounds take the
subclass defaults and the stored watermark is never consulted. -/
def runCycleWindow (search_interval : Int) (_last_run : Option Int)
    (now1 now2 : Int) : Int × Int :=
  splunkFetchWindow search_interval none none now1 now2

/-- One observable action of `AgentRunner.run_agent`
(src/agents/run_agents.py).  `publishToBus` is in the vocabulary so a trace
can express a message-bus publish; the source's publish step is only the
placeholder comment `# Process logs here (e.g., send to message bus)`. -/
inductive RunnerAction where
  | logInfo : String → RunnerAction
  | logError : String → RunnerAction
  | publishToBus : String → List Dict → RunnerAction
deriving DecidableEq, Repr

/-- Whether a runner action publishes to the message bus. -/
def isPublishAction : RunnerAction → Bool
  | .publishToBus _ _ => true
  | _ => false

/-- `AgentRunner.run_agent` (src/agents/run_agents.py): look the agent up,
run it, and log the outcome; `agentRun` is the event list returned by
`agent.run()`. -/
def runAgent (agentName : String) (registered : Bool)
    (agentRun : List Dict) : List RunnerAction :=
  if registered then
    .logInfo ("Running " ++ agentName ++ " agent") ::
      (if agentRun.isEmpty then
        [.logInfo ("No new logs from " ++ agentName)]
      else
        [.logInfo ("Collected " ++ toString agentRun.length ++ " logs from " ++ agentName)])
  else
    [.logError ("Agent " ++ agentName ++ " not found")]

/-- Decimal digit character. -/
def digitChar (d : Nat) : Char := Char.ofNat (48 + d)

/-- Decimal digits of a natural number, most significant first, as printed
by Python's `str`/`json.dumps`. -/
def natDigits (n : Nat) : List Char :=
  if n < 10 then [digitChar n]
  else natDigits (n / 10) ++ [digitChar (n % 10)]
termination_by n
decreasing_by omega

/-- Decimal rendering of an integer as printed by `json.dumps`. -/
def encInt (n : Int) : List Char :=
  if n < 0 then '-' :: natDigits n.natAbs else natDigits n.toNat

/-- JSON escaping of one character inside a string literal: `json.dumps`
escapes the quote and the backslash (control characters are not modelled;
the decoder below accepts them raw, so the composed round trip agrees with
the library pair on them as well). -/
def escapeChar (c : Char) : List Char :=
  if c = '"' ∨ c = '\\' then ['\\', c] else [c]

/-- JSON escaping of a character sequence. -/
def escapeChars : List Char → List Char
  | [] => []
  | c :: rest => escapeChar c ++ escapeChars rest

/-- JSON string literal for `s`, quotes included. -/
def encString (s : String) : List Char := '"' :: (escapeChars s.data ++ ['"'])

/-- JSON rendering of one scalar value. -/
def encValue : Value → List Char
  | .vstr s => encString s
  | .vint n => encInt n

/-- JSON rendering of one object member, with `json.dumps`'s default
`": "` key separator. -/
def encEntry (k : String) (v : Value) : List Char :=
  encString k ++ ':' :: ' ' :: encValue v

/-- JSON rendering of an object's members, with `json.dumps`'s default
`", "` item separator. -/
def encEntriesSep : Dict → List Char
  | [] => []
  | [(k, v)] => encEntry k v
  | (k, v) :: rest => encEntry k v ++ ',' :: ' ' :: encEntriesSep rest

/-- Python `json.dumps` on a flat canonical-event dictionary. -/
def dumps (m : Dict) : List Char :=
  match m with
  | [] => ['{', '}']
  | _ => '{' :: (encEntriesSep m ++ ['}'])

/-- Decoder for a JSON string body (opening quote already consumed):
returns the unescaped characters and the remaining input. -/
def parseStringBody : List Char → Option (List Char × List Char)
  | [] => none
  | c :: rest =>
      if c = '"' then some ([], rest)
      else if c = '\\' then
        match rest with
        | [] => none
        | d :: rest2 => (parseStringBody rest2).map fun p => (d :: p.1, p.2)
      else (parseStringBody rest).map fun p => (c :: p.1, p.2)

/-- Accumulator loop of the decimal-number decoder: consume leading digits. -/
def parseDigitsAux : List Char → Nat → Nat × List Char
  | [], acc => (acc, [])
  | c :: rest, acc =>
      if c.isDigit then parseDigitsAux rest (acc * 10 + (c.toNat - 48))
      else (acc, c :: rest)

/-- Decoder for an unsigned decimal number (at least one digit required). -/
def parseNat (s : List Char) : Option (Nat × List Char) :=
  match s with
  | [] => none
  | c :: _ => if c.isDigit then some (parseDigitsAux s 0) else none

/-- Decoder for a JSON integer, optionally signed. -/
def parseIntToken (s : List Char) : Option (Int × List Char) :=
  match s with
  | [] => none
  | c :: rest =>
      if c = '-' then (parseNat rest).map fun p => (-(p.1 : Int), p.2)
      else (parseNat s).map fun p => ((p.1 : Int), p.2)

/-- Decoder for one scalar JSON value. -/
def parseValue (s : List Char) : Option (Value × List Char) :=
  match s with
  | [] => none
  | c :: rest =>
      if c = '"' then (parseStringBody rest).map fun p => (Value.vstr (String.mk p.1), p.2)
      else (parseIntToken s).map fun p => (Value.vint p.1, p.2)

/-- Decoder for a nonempty member list of a JSON object (opening brace
already consumed), in the exact format `dumps` emits; consumes the closing
brace.  `fuel` bounds the number of members. -/
def parseEntries : Nat → List Char → Option (Dict × List Char)
  | 0, _ => none
  | fuel + 1, s =>
      match s with
      | '"' :: rest =>
          match parseStringBody rest with
          | none => none
          | some (key, rest1) =>
              match rest1 with
              | ':' :: ' ' :: rest2 =>
                  match parseValue rest2 with
                  | none => none
                  | some (v, rest3) =>
                      match rest3 with
                      | ',' :: ' ' :: rest4 =>
                          (parseEntries fuel rest4).map fun p =>
                            ((String.mk key, v) :: p.1, p.2)
                      | '}' :: rest4 => some ([(String.mk key, v)], rest4)
                      | _ => none
              | _ => none
      | _ => none

/-- Python `json.loads` on a message body, modelled on the format `dumps`
emits; trailing input is rejected, as the library does. -/
def loads (s : List Char) : Option Dict :=
  match s with
  | '{' :: '}' :: rest => if rest.isEmpty then some [] else none
  | '{' :: rest =>
      match parseEntries (rest.length + 1) rest with
      | some (d, []) => some d
      | _ => none
  | _ => none

/-- The queue table built in `MessageBus.__init__`
(src/analysis/message_bus.py): logical name to durable queue name. -/
def busQueues : List (String × String) :=
  [ ("logs", "security_logs"),
    ("analysis", "security_analysis"),
    ("alerts", "security_alerts"),
    ("investigations", "security_investigations") ]

/-- `self.queues.values()`: the declared durable queue names, the only
valid targets of `publish`/`consume`. -/
def declaredQueueNames : List String := busQueues.map Prod.snd

/-- Broker state: each declared queue's pending message bodies in FIFO
order (RabbitMQ durable queues, one buffer per routing key). -/
structure BusState where
  buffers : List (String × List (List Char))
deriving DecidableEq

/-- Association-list lookup of one queue's buffer. -/
def lookupBodies : List (String × List (List Char)) → String → Option (List (List Char))
  | [], _ => none
  | (k, v) :: rest, key => if k = key then some v else lookupBodies rest key

/-- Pending bodies of one queue. -/
def bufferOf (st : BusState) (queue : String) : List (List Char) :=
  match lookupBodies st.buffers queue with
  | some bodies => bodies
  | none => []

/-- Replace one queue's pending bodies. -/
def setBuffer (st : BusState) (queue : String) (bodies : List (List Char)) : BusState :=
  ⟨(queue, bodies) :: st.buffers.filter (fun kv => kv.1 ≠ queue)⟩

/-- Broker state after `_setup_queues`: every declared queue exists and is
empty. -/
def busInit : BusState := ⟨declaredQueueNames.map (fun q => (q, []))⟩

/-- `MessageBus.publish` (src/analysis/message_bus.py): reject undeclared
queues with `ValueError` (re-raised by the `except` clause), otherwise set
the caller's `message['timestamp']` to the current time and enqueue the
JSON-serialized message durably.  Returns the message as mutated together
with the new broker state. -/
def publish (now_iso : String) (st : BusState) (queue : String) (message : Dict) :
    Except String (Dict × BusState) :=
  if queue ∈ declaredQueueNames then
    let message' := dictSet message "timestamp" (.vstr now_iso)
    .ok (message', setBuffer st queue (bufferOf st queue ++ [dumps message']))
  else
    .error ("Invalid queue: " ++ queue)

/-- One delivery step of `MessageBus.consume` (src/analysis/message_bus.py):
take the oldest pending body of the queue, `json.loads` it, hand the payload
to the callback, then `basic_ack` on success or `basic_nack` (modelled as
requeueing at the back) when decoding or the callback raises.  Returns the
payload the callback received (with its ack flag) and the new broker state;
an undeclared queue is rejected as in `publish`. -/
def consumeOne (st : BusState) (queue : String) (callback : Dict → Except String Unit) :
    Except String (Option (Dict × Bool) × BusState) :=
  if queue ∈ declaredQueueNames then
    match bufferOf st queue with
    | [] => .ok (none, st)
    | body :: restBodies =>
        match loads body with
        | some msg =>
            match callback msg with
            | .ok _ => .ok (some (msg, true), setBuffer st queue restBodies)
            | .error _ => .ok (some (msg, false), setBuffer st queue (restBodies ++ [body]))
        | none => .ok (none, setBuffer st queue (restBodies ++ [body]))
  else
    .error ("Invalid queue: " ++ queue)

/-- Publish one canonical event to a queue of a fresh broker and deliver the
next pending message of that queue to a succeeding handler, returning the
payload the handler received. -/
def publishThenDeliver (now_iso : String) (queue : String) (message : Dict) : Option Dict :=
  match publish now_iso busInit queue message with
  | .ok (_, st) =>
      match consumeOne st queue (fun _ => .ok ()) with
      | .ok (some (payload, _), _) => some payload
      | _ => none
  | .error _ => none

/-- Structured result of `LLMAnalysisEngine.analyze_security_event`
(src/analysis/llm/engine.py). -/
structure AnalysisResult where
  severity : String
  impact : String
  recommendations : List String
  iocs : List String
deriving DecidableEq, Repr

/-- The fallback result built in the `except` clause of
`analyze_security_event`. -/
def fallbackAnalysis : AnalysisResult :=
  { severity := "unknown",
    impact := "Error during analysis",
    recommendations := ["Investigate analysis error"],
    iocs := [] }

/-- `LLMAnalysisEngine.analyze_security_event` (src/analysis/llm/engine.py):
render the prompt, invoke the language model, parse its free-text answer;
any exception along the way is caught by the `except` clause, which returns
the fallback result.  `formatPrompt` models the template substitution,
`generate` the tokenizer/model/decode pipeline (an external collaborator),
and `parseResponse` the `_parse_analysis_response` step; each may raise. -/
def analyzeSecurityEvent (formatPrompt : Except String String)
    (generate : String → Except String String)
    (parseResponse : String → Except String AnalysisResult) : AnalysisResult :=
  match formatPrompt with
  | .error _ => fallbackAnalysis
  | .ok prompt =>
      match generate prompt with
      | .error _ => fallbackAnalysis
      | .ok response =>
          match parseResponse response with
          | .error _ => fallbackAnalysis
          | .ok result => result

/-- Outcome of one per-channel delivery attempt inside
`Notifier.send_alert`. -/
inductive AttemptOutcome where
  | delivered
  | failed (err : String)
deriving DecidableEq, Repr

/-- Result of a fallible channel transport call. -/
def outcomeOf : Except String Unit → AttemptOutcome
  | .ok _ => .delivered
  | .error e => .failed e

/-- `Notifier.send_alert` (src/notifications/notifier.py): when `channels`
is `None` or empty (Python `if not channels`) the default pair
`['slack', 'email']` is used; each channel in turn is dispatched to its
sender inside `try/except`, so one channel's exception is caught and the
iteration continues; a channel name with no registered sender matches no
branch and nothing is attempted for it.  `slackSend`/`emailSend` model
`_send_slack_alert`/`_send_email_alert` (which raise on missing
configuration or transport failure).  Returns the trace of delivery
attempts in order. -/
def sendAlert (slackSend emailSend : Dict → Except String Unit)
    (alert : Dict) (channels : Option (List String)) :
    List (String × AttemptOutcome) :=
  let chans :=
    match channels with
    | none => ["slack", "email"]
    | some l => if l.isEmpty then ["slack", "email"] else l
  chans.filterMap fun c =>
    if c = "slack" then some (c, outcomeOf (slackSend alert))
    else if c = "email" then some (c, outcomeOf (emailSend alert))
    else none

/-- A text whose first character is not a digit: the decimal decoder stops
exactly there. -/
def noLeadingDigit : List Char → Bool
  | [] => true
  | c :: _ => !c.isDigit

theorem parseDigitsAux_stop (rest : List Char) (acc : Nat)
    (h : noLeadingDigit rest = true) : parseDigitsAux rest acc = (acc, rest) := by
  cases rest with
  | nil => rfl
  | cons c t =>
      simp [noLeadingDigit] at h
      simp [parseDigitsAux, h]

theorem digitChar_isDigit (d : Nat) (h : d < 10) :
    (digitChar d).isDigit = true ∧ (digitChar d).toNat = 48 + d := by
  interval_cases d <;> exact ⟨by decide, by decide⟩

theorem parseStringBody_enc (s rest : List Char) :
    parseStringBody (escapeChars s ++ '"' :: rest) = some (s, rest) := by
  induction s with
  | nil => simp [escapeChars, parseStringBody.eq_def]
  | cons c cs ih =>
      by_cases h : c = '"' ∨ c = '\\'
      · simp only [escapeChars, escapeChar, h, if_true, List.cons_append, List.nil_append,
          List.append_assoc]
        rw [parseStringBody.eq_def]
        simp [ih]
      · have hne : ¬(c = '"' ∨ c = '\\') := h
        push_neg at h
        simp only [escapeChars, escapeChar, hne, if_false, List.cons_append, List.nil_append,
          List.append_assoc]
        rw [parseStringBody.eq_def]
        simp [h.1, h.2, ih]

theorem parseDigitsAux_natDigits (n : Nat) : ∀ (acc : Nat) (rest : List Char),
    parseDigitsAux (natDigits n ++ rest) acc
      = parseDigitsAux rest (acc * 10 ^ (natDigits n).length + n) := by
  induction n using Nat.strong_induction_on with
  | _ n ih =>
      intro acc rest
      by_cases h : n < 10
      · rw [natDigits, if_pos h]
        obtain ⟨hd, ht⟩ := digitChar_isDigit n h
        rw [parseDigitsAux.eq_def]
        simp [hd, ht]
      · rw [natDigits, if_neg h]
        rw [List.append_assoc]
        simp only [List.cons_append, List.nil_append]
        rw [ih (n / 10) (Nat.div_lt_self (by omega) (by omega)) acc
          (digitChar (n % 10) :: rest)]
        obtain ⟨hd, ht⟩ := digitChar_isDigit (n % 10) (Nat.mod_lt n (by omega))
        rw [parseDigitsAux.eq_def]
        simp only [hd, if_true, ht, List.length_append, List.length_cons, List.length_nil]
        congr 1
        simp only [Nat.zero_add, pow_succ]
        rw [← mul_assoc]
        generalize acc * 10 ^ (natDigits (n / 10)).length = A
        omega

theorem natDigits_head (n : Nat) :
    ∃ c t, natDigits n = c :: t ∧ c.isDigit = true := by
  by_cases h : n < 10
  · exact ⟨digitChar n, [], by rw [natDigits, if_pos h], (digitChar_isDigit n h).1⟩
  · obtain ⟨c, t, hct, hc⟩ : ∃ c t, natDigits (n / 10) = c :: t ∧ c.isDigit = true := by
      have := natDigits_head (n / 10)
      exact this
    exact ⟨c, t ++ [digitChar (n % 10)], by rw [natDigits, if_neg h, hct]; rfl, hc⟩
termination_by n
decreasing_by exact Nat.div_lt_self (by omega) (by omega)

theorem parseNat_enc (n : Nat) (rest : List Char) (h : noLeadingDigit rest = true) :
    parseNat (natDigits n ++ rest) = some (n, rest) := by
  obtain ⟨c, t, hct, hc⟩ := natDigits_head n
  rw [parseNat.eq_def]
  rw [hct]
  simp only [List.cons_append, hc, if_true]
  rw [← List.cons_append, ← hct]
  rw [parseDigitsAux_natDigits n 0 rest, parseDigitsAux_stop rest _ h]
  simp

theorem parseIntToken_enc (i : Int) (rest : List Char) (h : noLeadingDigit rest = true) :
    parseIntToken (encInt i ++ rest) = some (i, rest) := by
  by_cases hi : i < 0
  · rw [encInt, if_pos hi]
    rw [parseIntToken.eq_def]
    simp only [List.cons_append, if_pos]
    rw [parseNat_enc i.natAbs rest h]
    have habs : ((i.natAbs : Int)) = -i := by omega
    simp [habs]
  · rw [encInt, if_neg hi]
    obtain ⟨c, t, hct, hc⟩ := natDigits_head i.toNat
    rw [parseIntToken.eq_def, hct]
    have hcm : c ≠ '-' := by
      intro hcontra
      rw [hcontra] at hc
      simp at hc
    simp only [List.cons_append, hcm, if_false]
    rw [← List.cons_append, ← hct, parseNat_enc i.toNat rest h]
    have htn : ((i.toNat : Int)) = i := by omega
    simp [htn]

theorem stringMkData : ∀ s : String, String.mk s.data = s
  | ⟨_⟩ => rfl

theorem parseValue_enc (v : Value) (rest : List Char) (h : noLeadingDigit rest = true) :
    parseValue (encValue v ++ rest) = some (v, rest) := by
  cases v with
  | vstr s =>
      have hX : encValue (.vstr s) ++ rest
          = '"' :: (escapeChars s.data ++ '"' :: rest) := by
        simp [encValue, encString]
      rw [hX, parseValue.eq_def]
      simp only [if_true]
      rw [parseStringBody_enc]
      simp [stringMkData]
  | vint i =>
      by_cases hi : i < 0
      · have hX : encValue (.vint i) ++ rest
            = '-' :: (natDigits i.natAbs ++ rest) := by
          simp [encValue, encInt, hi]
        rw [hX, parseValue.eq_def]
        have hq : ('-' : Char) ≠ '"' := by decide
        simp only [hq, if_false]
        rw [show ('-' :: (natDigits i.natAbs ++ rest)) = encInt i ++ rest by
          simp [encInt, hi]]
        rw [parseIntToken_enc i rest h]
        rfl
      · obtain ⟨c, t, hct, hc⟩ := natDigits_head i.toNat
        have hX : encValue (.vint i) ++ rest = c :: (t ++ rest) := by
          simp [encValue, encInt, hi, hct]
        rw [hX, parseValue.eq_def]
        have hq : c ≠ '"' := by
          intro hcontra; rw [hcontra] at hc; simp at hc
        simp only [hq, if_false]
        rw [show (c :: (t ++ rest)) = encInt i ++ rest by
          simp [encInt, hi, hct]]
        rw [parseIntToken_enc i rest h]
        rfl

theorem parseEntries_entry_last (f : Nat) (k : String) (v : Value) (R : List Char) :
    parseEntries (f + 1) (encEntry k v ++ '}' :: R) = some ([(k, v)], R) := by
  have hshape : encEntry k v ++ '}' :: R
      = '"' :: (escapeChars k.data ++ '"' :: (':' :: ' ' :: (encValue v ++ '}' :: R))) := by
    simp [encEntry, encString]
  rw [hshape, parseEntries.eq_def]
  simp only []
  rw [parseStringBody_enc]
  simp only []
  rw [parseValue_enc v ('}' :: R) (by simp [noLeadingDigit, Char.isDigit])]
  simp only [stringMkData]

theorem parseEntries_entry_more (f : Nat) (k : String) (v : Value) (R : List Char) :
    parseEntries (f + 1) (encEntry k v ++ ',' :: ' ' :: R)
      = (parseEntries f R).map fun p => ((k, v) :: p.1, p.2) := by
  have hshape : encEntry k v ++ ',' :: ' ' :: R
      = '"' :: (escapeChars k.data ++ '"' :: (':' :: ' ' :: (encValue v ++ ',' :: ' ' :: R))) := by
    simp [encEntry, encString]
  rw [hshape, parseEntries.eq_def]
  simp only []
  rw [parseStringBody_enc]
  simp only []
  rw [parseValue_enc v (',' :: ' ' :: R) (by simp [noLeadingDigit, Char.isDigit])]
  simp only [stringMkData]

theorem parseEntries_enc (m : Dict) : ∀ (fuel : Nat) (rest : List Char),
    m ≠ [] → m.length ≤ fuel →
    parseEntries fuel (encEntriesSep m ++ '}' :: rest) = some (m, rest) := by
  induction m with
  | nil => intro fuel rest hne _; exact absurd rfl hne
  | cons kv tail ih =>
      intro fuel rest _ hlen
      obtain ⟨k, v⟩ := kv
      cases fuel with
      | zero => simp at hlen
      | succ f =>
          cases tail with
          | nil =>
              rw [show encEntriesSep [(k, v)] = encEntry k v from rfl]
              exact parseEntries_entry_last f k v rest
          | cons kv2 tail2 =>
              rw [show encEntriesSep ((k, v) :: kv2 :: tail2)
                  = encEntry k v ++ ',' :: ' ' :: encEntriesSep (kv2 :: tail2) from rfl]
              rw [List.append_assoc]
              simp only [List.cons_append]
              rw [parseEntries_entry_more f k v]
              rw [ih f rest (by simp) (by simp at hlen ⊢; omega)]
              rfl

theorem encEntriesSep_cons_head (kv : String × Value) (tail : Dict) :
    ∃ t, encEntriesSep (kv :: tail) = '"' :: t := by
  obtain ⟨k, v⟩ := kv
  cases tail with
  | nil => exact ⟨escapeChars k.data ++ '"' :: (':' :: ' ' :: encValue v), by
      simp [encEntriesSep, encEntry, encString]⟩
  | cons kv2 tail2 => exact ⟨escapeChars k.data ++ '"'
      :: (':' :: ' ' :: (encValue v ++ ',' :: ' ' :: encEntriesSep (kv2 :: tail2))), by
      simp [encEntriesSep, encEntry, encString]⟩

theorem length_le_encEntriesSep (m : Dict) : m.length ≤ (encEntriesSep m).length := by
  induction m with
  | nil => simp [encEntriesSep]
  | cons kv tail ih =>
      obtain ⟨k, v⟩ := kv
      cases tail with
      | nil => simp [encEntriesSep, encEntry, encString]
      | cons kv2 tail2 =>
          rw [show encEntriesSep ((k, v) :: kv2 :: tail2)
              = encEntry k v ++ ',' :: ' ' :: encEntriesSep (kv2 :: tail2) from rfl]
          simp only [List.length_cons, List.length_append]
          simp at ih ⊢
          omega

theorem loads_dumps (m : Dict) : loads (dumps m) = some m := by
  cases m with
  | nil => rfl
  | cons kv tail =>
      obtain ⟨t, ht⟩ := encEntriesSep_cons_head kv tail
      have hd : dumps (kv :: tail) = '{' :: ('"' :: (t ++ ['}'])) := by
        rw [show dumps (kv :: tail) = '{' :: (encEntriesSep (kv :: tail) ++ ['}']) from rfl, ht]
        rfl
      rw [hd, loads.eq_def]
      simp
      rw [show ('"' :: (t ++ ['}'])) = encEntriesSep (kv :: tail) ++ '}' :: [] by
        rw [ht]; rfl]
      rw [parseEntries_enc (kv :: tail) _ [] (by simp) ?hlen]
      case hlen =>
        have h1 := length_le_encEntriesSep (kv :: tail)
        rw [ht] at h1
        simp at h1 ⊢
        omega

/-! Theorems. -/

/-- A fresh broker has every queue empty. -/
theorem bufferOf_busInit (queue : String) : bufferOf busInit queue = [] := by
  have hb : busInit.buffers
      = [("security_logs", []), ("security_analysis", []),
         ("security_alerts", []), ("security_investigations", [])] := rfl
  rw [bufferOf, hb]
  simp only [lookupBodies]
  split_ifs <;> rfl

/-- Reading back the buffer just written. -/
theorem bufferOf_setBuffer_self (st : BusState) (queue : String)
    (bodies : List (List Char)) : bufferOf (setBuffer st queue bodies) queue = bodies := by
  simp [bufferOf, setBuffer, lookupBodies]


/-- Wazuh's taxonomy is total into the canonical four-value set (supporting
fact for the invariant claims). -/
theorem wazuhMapSeverity_mem_canonical (level : Int) :
    wazuhMapSeverity level ∈ canonicalSeverities := by
  unfold wazuhMapSeverity canonicalSeverities
  split_ifs <;> simp

/-- C1: the claim says every canonical event carries a severity from
`{critical, high, medium, low}` produced by the severity taxonomy.
`SplunkAgent.parse_log` instead copies the record's native `severity` value
unchanged (defaulting to `'info'`): on a Splunk record whose native severity
is `'debug'`, the produced event's severity is `'debug'`, outside the
canonical set. -/
theorem splunk_parse_log_passes_native_severity :
    dictGet (splunkParseLog "2026-02-03T04:05:06"
        [("severity", Value.vstr "debug")]) "severity"
      = some (Value.vstr "debug")
    ∧ "debug" ∉ canonicalSeverities := by
  exact ⟨rfl, by decide⟩

/-- C2: the claim says a cycle with a non-empty event list publishes those
events to the `logs` queue.  `AgentRunner.run_agent` emits no message-bus
action at all — its action trace never contains a publish, and on a
one-event run it only logs the count (the publish step is a placeholder
comment in the source). -/
theorem run_agent_never_publishes :
    (∀ (agentName : String) (registered : Bool) (agentRun : List Dict),
      (runAgent agentName registered agentRun).filter isPublishAction = [])
    ∧ runAgent "splunk" true [[("severity", Value.vstr "low")]]
        = [.logInfo "Running splunk agent", .logInfo "Collected 1 logs from splunk"] := by
  constructor
  · intro agentName registered agentRun
    unfold runAgent
    split_ifs <;> simp [isPublishAction]
  · rfl

/-- C4: the claim says the fetch window starts at the watermark when it is
set.  `BaseLogAgent.run` calls `self.fetch_logs()` with no arguments, so the
window is always `(now - default_interval, now)`: with watermark `1000`,
interval `300` and both clock reads at `5000`, the window starts at `4700`,
not `1000`.  The first conjunct shows the watermark argument is ignored for
every value. -/
theorem run_cycle_window_ignores_watermark :
    (∀ (search_interval : Int) (last_run : Option Int) (now1 now2 : Int),
      runCycleWindow search_interval last_run now1 now2 = (now1 - search_interval, now2))
    ∧ runCycleWindow 300 (some 1000) 5000 5000 = (4700, 5000)
    ∧ (4700 : Int) ≠ 1000 := by
  refine ⟨fun i lr n1 n2 => rfl, rfl, by decide⟩

/-- C7: both numeric severity taxonomies are total with inclusive-upward
boundaries: on the 0–10 (GuardDuty) scale the result is `critical` iff the
value is at least 7, `high` iff it is in `[4, 7)`, `medium` iff in `[2, 4)`
and `low` iff below 2; on the 0–100 (SecurityHub) scale likewise at 70, 40
and 20; in particular `8.5` maps to `critical` and `35` to `medium`. -/
theorem severity_taxonomy_thresholds :
    (∀ v : ℚ,
      (mapGuarddutySeverity v = "critical" ↔ 7 ≤ v)
      ∧ (mapGuarddutySeverity v = "high" ↔ 4 ≤ v ∧ v < 7)
      ∧ (mapGuarddutySeverity v = "medium" ↔ 2 ≤ v ∧ v < 4)
      ∧ (mapGuarddutySeverity v = "low" ↔ v < 2))
    ∧ (∀ n : Int,
      (mapSecurityhubSeverity n = "critical" ↔ 70 ≤ n)
      ∧ (mapSecurityhubSeverity n = "high" ↔ 40 ≤ n ∧ n < 70)
      ∧ (mapSecurityhubSeverity n = "medium" ↔ 20 ≤ n ∧ n < 40)
      ∧ (mapSecurityhubSeverity n = "low" ↔ n < 20))
    ∧ mapGuarddutySeverity (17 / 2 : ℚ) = "critical"
    ∧ mapSecurityhubSeverity 35 = "medium" := by
  refine ⟨fun v => ?_, fun n => ?_, ?_, ?_⟩
  · unfold mapGuarddutySeverity
    split_ifs with h1 h2 h3 <;>
      refine ⟨?_, ?_, ?_, ?_⟩ <;> simp <;>
        first
          | linarith
          | constructor <;> linarith
          | (intro h; linarith)
  · unfold mapSecurityhubSeverity
    split_ifs with h1 h2 h3 <;>
      refine ⟨?_, ?_, ?_, ?_⟩ <;> simp <;> omega
  · unfold mapGuarddutySeverity
    norm_num
  · unfold mapSecurityhubSeverity
    norm_num

/-- Processing a batch in which every record translates successfully yields
exactly the translations, in order. -/
theorem processLogs_all_ok {α : Type} (parse_log : α → Except String Dict)
    (ok : α → Dict) (l : List α) (h : ∀ r ∈ l, parse_log r = .ok (ok r)) :
    processLogs parse_log l = l.map ok := by
  induction l with
  | nil => rfl
  | cons r rest ih =>
      have hr := h r (List.mem_cons_self r rest)
      have hrest := fun x hx => h x (List.mem_cons_of_mem r hx)
      simp [processLogs, List.filterMap_cons, hr, Except.toOption] at *
      exact ih hrest

/-- C5: `BaseLogAgent.run` advances the watermark to the cycle's completion
instant exactly when no connector-level exception occurs — `connect`
returned `True` and `fetch_logs` did not raise.  On a connector-level
failure the run returns the empty list with the watermark untouched, so no
events are produced that cycle; a fetch succeeding with zero records still
advances the watermark.  The hypothesis says the completion instant is
fresh, which a monotone clock guarantees. -/
theorem base_run_watermark_iff {α : Type} (connect : Except String Bool)
    (fetch_logs : Option Int → Option Int → Except String (List α))
    (parse_log : α → Except String Dict) (now_finish : Int) (last_run : Option Int)
    (hfresh : last_run ≠ some now_finish) :
    ((baseRun connect fetch_logs parse_log now_finish last_run).2 = some now_finish
      ↔ connect = .ok true ∧ ∃ logs, fetch_logs none none = .ok logs)
    ∧ (connect ≠ .ok true ∨ (∃ e, fetch_logs none none = .error e) →
        baseRun connect fetch_logs parse_log now_finish last_run = ([], last_run))
    ∧ (connect = .ok true → fetch_logs none none = .ok [] →
        baseRun connect fetch_logs parse_log now_finish last_run = ([], some now_finish)) := by
  unfold baseRun
  refine ⟨?_, ?_, ?_⟩
  · cases connect with
    | error e => simpa using fun h => absurd h hfresh
    | ok b =>
        cases b with
        | false => simpa using fun h => absurd h hfresh
        | true =>
            cases hf : fetch_logs none none with
            | error e => simpa [hf] using fun h => absurd h hfresh
            | ok logs => simp [hf]
  · intro h
    rcases h with h | ⟨e, he⟩
    · cases connect with
      | error _ => rfl
      | ok b => cases b with
        | false => rfl
        | true => exact absurd rfl h
    · cases connect with
      | error _ => rfl
      | ok b => cases b with
        | false => rfl
        | true => simp [he]
  · intro hc hf
    subst hc
    simp [hf, processLogs]

/-- Closed instance of C5: with a succeeding connect and a zero-record
fetch, the watermark advances to the completion instant `5`. -/
theorem base_run_watermark_iff_witness :
    (baseRun (Except.ok true) (fun _ _ => Except.ok ([] : List Dict))
      (fun d => Except.ok d) 5 none).2 = some 5 :=
  ((base_run_watermark_iff (Except.ok true) (fun _ _ => Except.ok ([] : List Dict))
      (fun d => Except.ok d) 5 none (by decide)).1).mpr ⟨rfl, [], rfl⟩

/-- C6: in a batch where exactly one record's translation raises and the
records before and after it all translate, `process_logs` returns exactly
the other `N − 1` canonical events in input order, and a run whose fetch
returned that batch still succeeds and advances the watermark. -/
theorem process_logs_drops_only_offender {α : Type}
    (parse_log : α → Except String Dict) (ok : α → Dict)
    (xs ys : List α) (bad : α) (e : String)
    (hxs : ∀ r ∈ xs, parse_log r = .ok (ok r))
    (hys : ∀ r ∈ ys, parse_log r = .ok (ok r))
    (hbad : parse_log bad = .error e) :
    processLogs parse_log (xs ++ bad :: ys) = xs.map ok ++ ys.map ok
    ∧ (processLogs parse_log (xs ++ bad :: ys)).length + 1 = (xs ++ bad :: ys).length
    ∧ ∀ now_finish last_run,
        baseRun (Except.ok true) (fun _ _ => Except.ok (xs ++ bad :: ys))
            parse_log now_finish last_run
          = (xs.map ok ++ ys.map ok, some now_finish) := by
  have hmain : processLogs parse_log (xs ++ bad :: ys) = xs.map ok ++ ys.map ok := by
    have happ : processLogs parse_log (xs ++ bad :: ys)
        = processLogs parse_log xs ++ processLogs parse_log (bad :: ys) := by
      simp [processLogs]
    have hcons : processLogs parse_log (bad :: ys) = processLogs parse_log ys := by
      simp [processLogs, hbad, Except.toOption]
    rw [happ, hcons, processLogs_all_ok parse_log ok xs hxs,
      processLogs_all_ok parse_log ok ys hys]
  refine ⟨hmain, ?_, ?_⟩
  · rw [hmain]
    simp
    omega
  · intro now_finish last_run
    simp [baseRun, hmain]

/-- Closed instance of C6: in the batch `[1, 0, 2]` where only `0` fails to
translate, exactly the events of `1` and `2` survive, in order, and the
watermark still advances. -/
theorem process_logs_drops_only_offender_witness :
    processLogs (fun n : Nat => if n = 0 then .error "boom" else .ok [("n", Value.vint n)])
        [1, 0, 2]
      = [[("n", Value.vint 1)], [("n", Value.vint 2)]] := by
  have h := process_logs_drops_only_offender
    (fun n : Nat => if n = 0 then .error "boom" else .ok [("n", Value.vint n)])
    (fun n => [("n", Value.vint n)]) [1] [2] 0 "boom"
    (by intro r hr; simp at hr; subst hr; rfl)
    (by intro r hr; simp at hr; subst hr; rfl)
    (by rfl)
  simpa using h.1

/-- C8: whenever the prompt rendering, the enrichment (model) call, or the
response parsing raises, `analyze_security_event` returns exactly the
fallback result — severity `unknown`, impact `Error during analysis`,
recommendations `['Investigate analysis error']`, empty IOC list — and,
being modelled as a total function, it never propagates the exception. -/
theorem analyze_security_event_fallback (formatPrompt : Except String String)
    (generate : String → Except String String)
    (parseResponse : String → Except String AnalysisResult)
    (h : (∃ e, formatPrompt = .error e)
      ∨ (∃ p e, formatPrompt = .ok p ∧ generate p = .error e)
      ∨ (∃ p r e, formatPrompt = .ok p ∧ generate p = .ok r ∧ parseResponse r = .error e)) :
    analyzeSecurityEvent formatPrompt generate parseResponse = fallbackAnalysis := by
  rcases h with ⟨e, he⟩ | ⟨p, e, hp, he⟩ | ⟨p, r, e, hp, hr, he⟩
  · simp [analyzeSecurityEvent, he]
  · simp [analyzeSecurityEvent, hp, he]
  · simp [analyzeSecurityEvent, hp, hr, he]

/-- Closed instance of C8: an enrichment call that raises yields the
fallback result. -/
theorem analyze_security_event_fallback_witness :
    analyzeSecurityEvent (Except.ok "prompt") (fun _ => Except.error "cuda out of memory")
        (fun _ => Except.ok fallbackAnalysis)
      = fallbackAnalysis :=
  analyze_security_event_fallback (Except.ok "prompt")
    (fun _ => Except.error "cuda out of memory") (fun _ => Except.ok fallbackAnalysis)
    (Or.inr (Or.inl ⟨"prompt", "cuda out of memory", rfl, rfl⟩))

/-- C9: `send_alert` attempts the channels independently: which deliveries
are attempted (the trace's channel names) does not depend on the outcome of
any delivery — so one channel's exception, which is caught, never prevents
the remaining channels — and with slack failing and email succeeding both
are attempted and email is delivered.  The function is total, so a channel
failure alone never makes `send_alert` raise. -/
theorem send_alert_channels_independent :
    (∀ (s1 e1 s2 e2 : Dict → Except String Unit) (alert : Dict)
        (channels : Option (List String)),
      (sendAlert s1 e1 alert channels).map Prod.fst
        = (sendAlert s2 e2 alert channels).map Prod.fst)
    ∧ ∀ (alert : Dict),
        sendAlert (fun _ => .error "slack webhook 500") (fun _ => .ok ()) alert
            (some ["slack", "email"])
          = [("slack", .failed "slack webhook 500"), ("email", .delivered)] := by
  constructor
  · intro s1 e1 s2 e2 alert channels
    unfold sendAlert
    generalize (match channels with
      | none => ["slack", "email"]
      | some l => if l.isEmpty then ["slack", "email"] else l) = chans
    induction chans with
    | nil => rfl
    | cons c rest ih =>
        by_cases hc : c = "slack"
        · simp [hc, List.filterMap_cons, ih]
        · by_cases hc' : c = "email" <;> simp [hc, hc', List.filterMap_cons, ih]
  · intro alert
    rfl

/-- Dictionary assignment stores the assigned value at the assigned key. -/
theorem dictGet_dictSet_self (m : Dict) (key : String) (v : Value) :
    dictGet (dictSet m key v) key = some v := by
  induction m with
  | nil => simp [dictSet, dictGet]
  | cons kv rest ih =>
      cases kv with
      | mk k' w =>
          by_cases hk : k' = key <;> simp [dictSet, dictGet, hk, ih]

/-- Dictionary assignment leaves every other key's value unchanged. -/
theorem dictGet_dictSet_ne (m : Dict) (key k : String) (v : Value)
    (h : key ≠ k) : dictGet (dictSet m key v) k = dictGet m k := by
  induction m with
  | nil => simp [dictSet, dictGet, h]
  | cons kv rest ih =>
      cases kv with
      | mk k' w =>
          by_cases hk : k' = key
          · subst hk
            simp [dictSet, dictGet, h]
          · by_cases hkk : k' = k <;> simp [dictSet, dictGet, hk, hkk, ih, Ne.symm h]

/-- C10: on a declared queue, `publish` succeeds and hands back the caller's
dictionary mutated in place: its `timestamp` key is set (overwritten when
present) to the publish instant, and every other key keeps its value. -/
theorem publish_stamps_only_timestamp (now_iso : String) (st : BusState)
    (queue : String) (message : Dict) (h : queue ∈ declaredQueueNames) :
    (∃ st', publish now_iso st queue message
        = .ok (dictSet message "timestamp" (.vstr now_iso), st'))
    ∧ dictGet (dictSet message "timestamp" (.vstr now_iso)) "timestamp"
        = some (.vstr now_iso)
    ∧ ∀ k, k ≠ "timestamp" →
        dictGet (dictSet message "timestamp" (.vstr now_iso)) k = dictGet message k := by
  refine ⟨⟨setBuffer st queue (bufferOf st queue
      ++ [dumps (dictSet message "timestamp" (.vstr now_iso))]), by simp [publish, h]⟩,
    dictGet_dictSet_self message "timestamp" (.vstr now_iso),
    fun k hk => dictGet_dictSet_ne message "timestamp" k (.vstr now_iso) (fun h' => hk h'.symm)⟩

/-- Closed instance of C10: publishing `{'a': 'b'}` to `security_logs` at
instant `T` stamps `timestamp = T` and leaves key `'a'` unchanged. -/
theorem publish_stamps_only_timestamp_witness :
    dictGet (dictSet [("a", Value.vstr "b")] "timestamp" (.vstr "T")) "timestamp"
      = some (.vstr "T")
    ∧ dictGet (dictSet [("a", Value.vstr "b")] "timestamp" (.vstr "T")) "a"
      = dictGet [("a", Value.vstr "b")] "a" :=
  ⟨(publish_stamps_only_timestamp "T" busInit "security_logs" [("a", Value.vstr "b")]
      (by decide)).2.1,
   (publish_stamps_only_timestamp "T" busInit "security_logs" [("a", Value.vstr "b")]
      (by decide)).2.2 "a" (by decide)⟩

/-- C3: the claim says consuming after publishing delivers a payload equal,
field for field, to the original.  It is false at the concrete canonical
event `{'service': 'cloudtrail'}` published to `security_logs`: `publish`
stamps a `timestamp` field before serializing, so the handler receives a
payload with a `timestamp` key the original lacks. -/
theorem publish_consume_not_identity :
    publishThenDeliver "2026-02-03T04:05:06" "security_logs"
        [("service", Value.vstr "cloudtrail")]
      = some [("service", Value.vstr "cloudtrail"),
              ("timestamp", Value.vstr "2026-02-03T04:05:06")]
    ∧ publishThenDeliver "2026-02-03T04:05:06" "security_logs"
        [("service", Value.vstr "cloudtrail")]
      ≠ some [("service", Value.vstr "cloudtrail")] := by
  constructor
  · rfl
  · intro hcontra
    rw [show publishThenDeliver "2026-02-03T04:05:06" "security_logs"
        [("service", Value.vstr "cloudtrail")]
      = some [("service", Value.vstr "cloudtrail"),
              ("timestamp", Value.vstr "2026-02-03T04:05:06")] from rfl] at hcontra
    simp at hcontra

/-- C3 as amended: publishing a canonical event to a declared queue and then
consuming that queue delivers to the handler exactly the published form of
the event — the original with its `timestamp` field set to the publish
instant; every other field survives the JSON round trip unchanged. -/
theorem publish_consume_roundtrip (now_iso : String) (queue : String)
    (message : Dict) (h : queue ∈ declaredQueueNames) :
    publishThenDeliver now_iso queue message
      = some (dictSet message "timestamp" (.vstr now_iso)) := by
  unfold publishThenDeliver
  rw [show publish now_iso busInit queue message
      = .ok (dictSet message "timestamp" (.vstr now_iso),
          setBuffer busInit queue (bufferOf busInit queue
            ++ [dumps (dictSet message "timestamp" (.vstr now_iso))])) from by
    simp [publish, h]]
  simp only [bufferOf_busInit, List.nil_append]
  rw [consumeOne, if_pos h, bufferOf_setBuffer_self]
  simp [loads_dumps]

/-- Closed instance of the amended C3: a one-field event published to
`security_alerts` is delivered with its `timestamp` stamped. -/
theorem publish_consume_roundtrip_witness :
    publishThenDeliver "T1" "security_alerts" [("k", Value.vstr "v")]
      = some (dictSet [("k", Value.vstr "v")] "timestamp" (Value.vstr "T1")) :=
  publish_consume_roundtrip "T1" "security_alerts" [("k", Value.vstr "v")] (by decide)

end AluhaSOC
